import Mathlib

set_option maxRecDepth 8000

/-!
Shallow embedding of the minitar archiver
(src/proj1-code/minitar.c, minitar.h, minitar_main.c).

Conventions of the embedding:

* A byte is a `Nat` (intended range 0..255); a file and an archive are byte
  lists.  A C string is modelled as the list of its bytes before the
  terminating NUL, hence file-name lists contain no 0 byte (hypotheses state
  this where a result depends on it).
* A filesystem is an association list from file names to data; `alookup`
  returns the first binding and a write prepends a binding, so the newest
  write shadows older ones exactly as `fopen(..., "wb")` truncates a prior
  file of the same name.
* `char` is signed on the compiler's target (x86-64 Linux); the summation
  loop of `compute_checksum` therefore adds sign-extended byte values to an
  `unsigned` 32-bit accumulator.  `chksumValue` reproduces that arithmetic.
* The list container of file_list.h is not part of src/.  Modelled from the
  spec: an ordered sequence with order-preserving insertion (Lean lists) and
  exact-equality membership for `file_list_contains` (spec section 4.6).
* Backward `fseek`s, reachable in `get_archive_file_list` only when a header
  stores a negative octal size, are outside the model: the scanner returns
  `none` there.  No claim touches that corner.
-/

/-- A run of `n` zero bytes (`memset(..., 0, n)` / zero-filled blocks). -/
def zeros (n : Nat) : List Nat := List.replicate n 0

/-- Bytes of a C string read from a buffer: everything before the first NUL.
Reading a field with `%s`/`strncpy`/`strtol` continues past the field into the
following header bytes when the field holds no NUL, as the C does. -/
def cstring (bs : List Nat) : List Nat := bs.takeWhile (fun b => b != 0)

/-- ASCII octal digits of `v`, most significant first, as `%o` prints them.
Fuel-structured (fuel `≥ v + 1` suffices) so it reduces in the kernel. -/
def octRepAux : Nat → Nat → List Nat
  | 0, _ => []
  | f + 1, v => if v < 8 then [48 + v] else octRepAux f (v / 8) ++ [48 + v % 8]

def octRep (v : Nat) : List Nat := octRepAux (v + 1) v

/-- `%0wo`: octal digits zero-padded on the left to at least `w` characters. -/
def octalPad (w v : Nat) : List Nat :=
  List.replicate (w - (octRep v).length) 48 ++ octRep v

/-- `snprintf(field, w, "%0(w-1)o", v)`: at most `w - 1` characters, then NUL
(minitar.c:47,101,104,114,124,125,131,132). -/
def octalField (w v : Nat) : List Nat := (octalPad (w - 1) v).take (w - 1) ++ [0]

/-- `strncpy(dst, src, n)` into an `n`-byte field, for a NUL-free source. -/
def strncpyF (n : Nat) (s : List Nat) : List Nat :=
  s.take n ++ List.replicate (n - s.length) 0

/-- The POSIX tar header of minitar.h:8-42; `prefixField` is the `prefix`
member.  Serialized by `headerBytes` in declaration order, 512 bytes. -/
structure tar_header where
  name : List Nat
  mode : List Nat
  uid : List Nat
  gid : List Nat
  size : List Nat
  mtime : List Nat
  chksum : List Nat
  typeflag : Nat
  linkname : List Nat
  magic : List Nat
  version : List Nat
  uname : List Nat
  gname : List Nat
  devmajor : List Nat
  devminor : List Nat
  prefixField : List Nat
  padding : List Nat

/-- The on-disk bytes of a header record: the struct is a packed sequence of
char arrays, so serialization is plain concatenation. -/
def headerBytes (h : tar_header) : List Nat :=
  h.name ++ h.mode ++ h.uid ++ h.gid ++ h.size ++ h.mtime ++ h.chksum ++
    [h.typeflag] ++ h.linkname ++ h.magic ++ h.version ++ h.uname ++ h.gname ++
    h.devmajor ++ h.devminor ++ h.prefixField ++ h.padding

/-- Metadata the environment supplies for one file: the `stat` results and
the user/group names resolved by `getpwuid`/`getgrgid` (`st_size` is the
content length). -/
structure FileData where
  content : List Nat
  mode : Nat
  uid : Nat
  gid : Nat
  mtime : Nat
  uname : List Nat
  gname : List Nat
  devmajor : Nat
  devminor : Nat
deriving DecidableEq

/-- Value of one `char` summand in `compute_checksum`: `char` is signed on
the target, so bytes 128..255 enter the sum as negative values. -/
def signedByte (b : Nat) : Int := if b < 128 then (b : Int) else (b : Int) - 256

/-- The accumulator of minitar.c:40-45: `unsigned sum` wraps modulo 2^32
while the `char` addends are sign-extended. -/
def chksumValue (bs : List Nat) : Nat :=
  ((bs.map signedByte).sum % (2 ^ 32 : Int)).toNat

/-- minitar.c:37-48: blank the checksum field to eight spaces, sum the 512
bytes, write the sum back as `%07o`. -/
def compute_checksum (h : tar_header) : tar_header :=
  let h1 := { h with chksum := List.replicate 8 32 }
  { h1 with chksum := octalField 8 (chksumValue (headerBytes h1)) }

/-- minitar.c:86-137, for a file the environment can stat and whose owner
and group names resolve (the failure exits touch no archive state). -/
def fill_tar_header (file_name : List Nat) (d : FileData) : tar_header :=
  compute_checksum {
    name := strncpyF 100 file_name
    mode := octalField 8 (d.mode % 4096)
    uid := octalField 8 d.uid
    gid := octalField 8 d.gid
    size := octalField 12 (d.content.length % 2 ^ 32)
    mtime := octalField 12 (d.mtime % 2 ^ 32)
    chksum := List.replicate 8 0
    typeflag := 48
    linkname := List.replicate 100 0
    magic := strncpyF 6 [117, 115, 116, 97, 114]
    version := [48, 48]
    uname := strncpyF 32 d.uname
    gname := strncpyF 32 d.gname
    devmajor := octalField 8 d.devmajor
    devminor := octalField 8 d.devminor
    prefixField := List.replicate 155 0
    padding := List.replicate 12 0 }

/-- Source filesystem: names to metadata-plus-content. -/
abbrev InFS := List (List Nat × FileData)

/-- Destination filesystem built by extraction: names to contents. -/
abbrev OutFS := List (List Nat × List Nat)

/-- First binding for a key in an association list. -/
def alookup {α : Type} : List (List Nat × α) → List Nat → Option α
  | [], _ => none
  | (k, v) :: t, p => if k = p then some v else alookup t p

/-- `fopen(path, "wb")` then write `c`: the new binding shadows any older
file of the same name. -/
def fsWrite (st : OutFS) (p c : List Nat) : OutFS := (p, c) :: st

/-- Content blocks of one archive entry: the fread/fwrite loop of
minitar.c:239-262 emits full 512-byte blocks, zero-padding the last. -/
def padContent (c : List Nat) : List Nat :=
  c ++ zeros ((512 - c.length % 512) % 512)

/-- Bytes one member contributes to the archive: header block then padded
content (minitar.c:225,250). -/
def entryBytes (n : List Nat) (d : FileData) : List Nat :=
  headerBytes (fill_tar_header n d) ++ padContent d.content

/-- The member loop shared by create and append (minitar.c:196-270 and
329-403): writes the entries in list order; on the first member that fails
to open, stops with the bytes already written. -/
def writeEntriesP (fs : InFS) : List (List Nat) → Bool × List Nat
  | [] => (true, [])
  | n :: rest =>
    match alookup fs n with
    | none => (false, [])
    | some d =>
      let r := writeEntriesP fs rest
      (r.1, entryBytes n d ++ r.2)

/-- minitar.c:187-291: truncate/create the archive, write every member,
then two zero blocks. -/
def create_archive (fs : InFS) (files : List (List Nat)) : Bool × List Nat :=
  if (writeEntriesP fs files).1 then (true, (writeEntriesP fs files).2 ++ zeros 1024)
  else (false, (writeEntriesP fs files).2)

/-- minitar.c:149-173: clamp the new size at zero, then `truncate`. -/
def remove_trailing_bytes (file : List Nat) (nbytes : Nat) : List Nat :=
  file.take (if nbytes > file.length then 0 else file.length - nbytes)

/-- minitar.c:305-424: drop the 1024 trailing bytes, append each member at
end-of-file, then write a fresh two-block footer. -/
def append_files_to_archive (archive : List Nat) (fs : InFS)
    (files : List (List Nat)) : Bool × List Nat :=
  if (writeEntriesP fs files).1 then
    (true, remove_trailing_bytes archive 1024 ++ ((writeEntriesP fs files).2 ++ zeros 1024))
  else (false, remove_trailing_bytes archive 1024 ++ (writeEntriesP fs files).2)

/-- `isspace` bytes skipped by `strtol`. -/
def isSpaceB (b : Nat) : Bool := b == 32 || (decide (9 ≤ b) && decide (b ≤ 13))

/-- Octal digit run consumed by `strtol(..., 8)`. -/
def parseOctDigits : List Nat → Nat → Nat
  | [], acc => acc
  | b :: rest, acc =>
    if 48 ≤ b ∧ b ≤ 55 then parseOctDigits rest (8 * acc + (b - 48)) else acc

/-- `strtol(s, NULL, 8)`: optional whitespace, optional sign, octal digits
(minitar.c:507,622).  Sizes in this archive fit a `long`, so no clamping. -/
def strtolOct (s : List Nat) : Int :=
  match s.dropWhile isSpaceB with
  | [] => 0
  | b :: r =>
    if b = 43 then Int.ofNat (parseOctDigits r 0)
    else if b = 45 then -Int.ofNat (parseOctDigits r 0)
    else Int.ofNat (parseOctDigits (b :: r) 0)

/-- C `long` division by a positive divisor truncates toward zero. -/
def tdivP (a : Int) (b : Nat) : Int :=
  if 0 ≤ a then Int.ofNat (a.toNat / b) else -Int.ofNat ((-a).toNat / b)

/-- The content-copy loop of minitar.c:641-670: read `k` full blocks (a
short read fails), write `min(remaining, 512)` bytes of each. -/
def copyContent : List Nat → Nat → Nat → Option (List Nat)
  | _, 0, _ => some []
  | r, k + 1, remaining =>
    if r.length < 512 then none
    else
      let toWrite := min remaining 512
      match copyContent (r.drop 512) k (remaining - toWrite) with
      | none => none
      | some ws => some ((r.take 512).take toWrite ++ ws)

/-- Output path of one entry, minitar.c:615-619: `prefix + "/" + name` when
the prefix field's first byte is nonzero, else the name alone; `snprintf`
truncates to 255 bytes. -/
def entryPath (block : List Nat) : List Nat :=
  (if (block.drop 345).headD 0 ≠ 0 then
      cstring (block.drop 345) ++ [47] ++ cstring block
    else cstring block).take 255

/-- The extraction loop of minitar.c:563-676 over the unread suffix of the
archive.  A short header read ends the loop with success; a single zero
block peeks the next block and either stops (second zero block or short
read) or rewinds; otherwise the entry's content is copied out. -/
def extractLoop (rest : List Nat) (st : OutFS) : Option OutFS :=
  if h1 : rest.length < 512 then some st
  else if (rest.take 512).all (fun b => b == 0) then
    if (rest.drop 512).length < 512 then some st
    else if ((rest.drop 512).take 512).all (fun b => b == 0) then some st
    else extractLoop (rest.drop 512) st
  else if tdivP (strtolOct ((rest.take 512).drop 124) + 511) 512 ≤ 0 then
    extractLoop (rest.drop 512) (fsWrite st (entryPath (rest.take 512)) [])
  else
    match copyContent (rest.drop 512)
        (tdivP (strtolOct ((rest.take 512).drop 124) + 511) 512).toNat
        (strtolOct ((rest.take 512).drop 124)).toNat with
    | none => none
    | some written =>
      extractLoop
        (rest.drop (512 + 512 * (tdivP (strtolOct ((rest.take 512).drop 124) + 511) 512).toNat))
        (fsWrite st (entryPath (rest.take 512)) written)
termination_by rest.length
decreasing_by
  all_goals simp only [List.length_drop]
  all_goals omega

/-- minitar.c:548-683 with `st` the destination directory's contents. -/
def extract_files_from_archive (archive : List Nat) (st : OutFS) : Option OutFS :=
  extractLoop archive st

/-- The scan loop of minitar.c:449-518 over the unread suffix, with the same
end-marker lookahead as extraction; a non-empty block contributes its name
field (at most `maxLen` bytes, minitar.c:493-495) and the stream skips
`ceil(size / 512)` content blocks.  `maxLen` is file_list.h's MAX_NAME_LEN
(header not in src/).  A negative stored size would make the C seek
backward; the model returns `none` there (unreachable in every claim). -/
def scanLoop (maxLen : Nat) (rest : List Nat) (acc : List (List Nat)) :
    Option (List (List Nat)) :=
  if h1 : rest.length < 512 then some acc
  else if (rest.take 512).all (fun b => b == 0) then
    if (rest.drop 512).length < 512 then some acc
    else if ((rest.drop 512).take 512).all (fun b => b == 0) then some acc
    else scanLoop maxLen (rest.drop 512) acc
  else if tdivP (strtolOct ((rest.take 512).drop 124) + 511) 512 < 0 then none
  else
    scanLoop maxLen
      (rest.drop (512 + 512 * (tdivP (strtolOct ((rest.take 512).drop 124) + 511) 512).toNat))
      (acc ++ [(cstring (rest.take 512)).take maxLen])
termination_by rest.length
decreasing_by
  all_goals simp only [List.length_drop]
  all_goals omega

/-- minitar.c:437-535 starting from an empty name list. -/
def get_archive_file_list (maxLen : Nat) (archive : List Nat) :
    Option (List (List Nat)) :=
  scanLoop maxLen archive []

/-- The `-u` branch of minitar_main.c:88-127: list the archive, reject the
whole update unless every requested name is already present (membership by
exact equality, `file_list_contains` modelled from the spec), else delegate
to append.  Returns the success flag and the archive bytes afterwards. -/
def update_archive (maxLen : Nat) (archive : List Nat) (fs : InFS)
    (files : List (List Nat)) : Bool × List Nat :=
  match get_archive_file_list maxLen archive with
  | none => (false, archive)
  | some l =>
    if files.all (fun n => l.contains n) then append_files_to_archive archive fs files
    else (false, archive)

/-- Modelled from the spec: the checksum the spec's words prescribe — the
unsigned byte-sum (each byte 0..255) of the record with the checksum field
held at eight spaces, re-encoded as a zero-padded octal string. -/
def unsignedChecksumOctal (h : tar_header) : List Nat :=
  octalField 8 (headerBytes { h with chksum := List.replicate 8 32 }).sum

/-! ### Basic facts about the octal codec and byte-string helpers -/

theorem octRepAux_congr : ∀ v f g, v < f → v < g → octRepAux f v = octRepAux g v := by
  intro v
  induction v using Nat.strong_induction_on with
  | _ v ih =>
    intro f g hf hg
    cases f with
    | zero => omega
    | succ f =>
      cases g with
      | zero => omega
      | succ g =>
        simp only [octRepAux]
        by_cases h8 : v < 8
        · simp [h8]
        · simp only [if_neg h8]
          have hv : v / 8 < v := Nat.div_lt_self (by omega) (by omega)
          rw [ih (v / 8) hv f g (by omega) (by omega)]

theorem octRep_step (v : Nat) :
    octRep v = if v < 8 then [48 + v] else octRep (v / 8) ++ [48 + v % 8] := by
  by_cases h8 : v < 8
  · simp [octRep, octRepAux, h8]
  · have hv : v / 8 < v := Nat.div_lt_self (by omega) (by omega)
    rw [if_neg h8]
    show (if v < 8 then [48 + v] else octRepAux v (v / 8) ++ [48 + v % 8]) = _
    rw [if_neg h8, octRepAux_congr (v / 8) v (v / 8 + 1) hv (by omega)]
    rfl

theorem octRep_digits (v : Nat) : ∀ b ∈ octRep v, 48 ≤ b ∧ b ≤ 55 := by
  induction v using Nat.strong_induction_on with
  | _ v ih =>
    rw [octRep_step]
    by_cases h8 : v < 8
    · simp only [if_pos h8, List.mem_singleton]
      intro b hb; omega
    · simp only [if_neg h8, List.mem_append, List.mem_singleton]
      intro b hb
      rcases hb with h | h
      · exact ih (v / 8) (Nat.div_lt_self (by omega) (by omega)) b h
      · have := Nat.mod_lt v (y := 8) (by omega); omega

theorem octRep_length_pos (v : Nat) : 1 ≤ (octRep v).length := by
  rw [octRep_step]
  by_cases h8 : v < 8
  · simp [h8]
  · simp [h8]

theorem octRep_length_le : ∀ v k, v < 8 ^ k → 1 ≤ k → (octRep v).length ≤ k := by
  intro v
  induction v using Nat.strong_induction_on with
  | _ v ih =>
    intro k hv hk
    rw [octRep_step]
    by_cases h8 : v < 8
    · simpa [h8] using hk
    · simp only [if_neg h8, List.length_append, List.length_singleton]
      have hk2 : 2 ≤ k := by
        by_contra hc
        have : k = 1 := by omega
        subst this; simp at hv; omega
      have hdiv : v / 8 < 8 ^ (k - 1) := by
        rw [Nat.div_lt_iff_lt_mul (by omega)]
        calc v < 8 ^ k := hv
        _ = 8 ^ (k - 1) * 8 := by
              rw [← Nat.pow_succ]; congr 1; omega
      have := ih (v / 8) (Nat.div_lt_self (by omega) (by omega)) (k - 1) hdiv (by omega)
      omega

theorem parseOctDigits_nul (rest : List Nat) (acc : Nat) :
    parseOctDigits (0 :: rest) acc = acc := by
  simp [parseOctDigits]

theorem parseOctDigits_octRep (v : Nat) :
    ∀ rest acc, parseOctDigits (octRep v ++ rest) acc =
      parseOctDigits rest (acc * 8 ^ (octRep v).length + v) := by
  induction v using Nat.strong_induction_on with
  | _ v ih =>
    intro rest acc
    rw [octRep_step]
    by_cases h8 : v < 8
    · simp only [if_pos h8, List.singleton_append, parseOctDigits,
        if_pos (by omega : 48 ≤ 48 + v ∧ 48 + v ≤ 55)]
      congr 1
      simp only [List.length_singleton, pow_one]
      omega
    · simp only [if_neg h8, List.append_assoc, List.singleton_append]
      rw [ih (v / 8) (Nat.div_lt_self (by omega) (by omega))]
      have hd : 48 ≤ 48 + v % 8 ∧ 48 + v % 8 ≤ 55 := by
        have := Nat.mod_lt v (y := 8) (by omega); omega
      simp only [parseOctDigits, if_pos hd]
      congr 1
      have hmod : 48 + v % 8 - 48 = v % 8 := by omega
      rw [hmod, List.length_append, List.length_singleton, Nat.pow_succ]
      have := Nat.div_add_mod v 8
      ring_nf
      omega

theorem parseOctDigits_pad48 : ∀ k rest, parseOctDigits (List.replicate k 48 ++ rest) 0 =
    parseOctDigits rest 0 := by
  intro k
  induction k with
  | zero => intro rest; simp
  | succ k ih =>
    intro rest
    simp only [List.replicate_succ, List.cons_append, parseOctDigits,
      if_pos (by omega : 48 ≤ 48 ∧ 48 ≤ 55)]
    simpa using ih rest

theorem parseOctDigits_octalPad (w v : Nat) (rest : List Nat) :
    parseOctDigits (octalPad w v ++ rest) 0 = parseOctDigits rest v := by
  unfold octalPad
  rw [List.append_assoc, parseOctDigits_pad48, parseOctDigits_octRep]
  simp

theorem octalPad_digits (w v : Nat) : ∀ b ∈ octalPad w v, 48 ≤ b ∧ b ≤ 55 := by
  unfold octalPad
  intro b hb
  rcases List.mem_append.mp hb with h | h
  · have := List.eq_of_mem_replicate h; omega
  · exact octRep_digits v b h

theorem octalPad_length (w v : Nat) :
    (octalPad w v).length = max w (octRep v).length := by
  simp [octalPad]
  omega

theorem octalPad_length_of_lt (w v : Nat) (hw : 1 ≤ w) (hv : v < 8 ^ w) :
    (octalPad w v).length = w := by
  rw [octalPad_length]
  have := octRep_length_le v w hv hw
  omega

theorem octalField_length (w v : Nat) (hw : 1 ≤ w) : (octalField w v).length = w := by
  simp [octalField, octalPad]
  omega

theorem strncpyF_length (n : Nat) (s : List Nat) : (strncpyF n s).length = n := by
  simp [strncpyF]
  omega

theorem octalField_of_lt (w v : Nat) (hw : 2 ≤ w) (hv : v < 8 ^ (w - 1)) :
    octalField w v = octalPad (w - 1) v ++ [0] := by
  unfold octalField
  rw [List.take_of_length_le (by rw [octalPad_length_of_lt (w - 1) v (by omega) hv])]

theorem isSpaceB_digit (b : Nat) (h : 48 ≤ b ∧ b ≤ 55) : isSpaceB b = false := by
  simp [isSpaceB]
  omega

theorem strtolOct_digits_run (ds rest : List Nat) (hne : ds ≠ [])
    (hd : ∀ b ∈ ds, 48 ≤ b ∧ b ≤ 55) :
    strtolOct (ds ++ rest) = Int.ofNat (parseOctDigits (ds ++ rest) 0) := by
  cases ds with
  | nil => exact absurd rfl hne
  | cons b t =>
    have hb := hd b (by simp)
    unfold strtolOct
    rw [List.cons_append, List.dropWhile_cons, isSpaceB_digit b hb]
    simp only [Bool.false_eq_true, if_false, if_neg (by omega : ¬ b = 43),
      if_neg (by omega : ¬ b = 45)]

theorem strtolOct_octalField (w v : Nat) (rest : List Nat) (hw : 2 ≤ w)
    (hv : v < 8 ^ (w - 1)) :
    strtolOct (octalField w v ++ rest) = Int.ofNat v := by
  rw [octalField_of_lt w v hw hv, List.append_assoc, List.singleton_append,
    strtolOct_digits_run (octalPad (w - 1) v) (0 :: rest)
      (by
        intro hc
        have := octalPad_length_of_lt (w - 1) v (by omega) hv
        rw [hc] at this
        simp at this
        omega)
      (octalPad_digits (w - 1) v),
    parseOctDigits_octalPad, parseOctDigits_nul]

theorem cstring_append_stop (xs ys : List Nat) (h : ∀ b ∈ xs, b ≠ 0) :
    cstring (xs ++ 0 :: ys) = xs := by
  unfold cstring
  rw [List.takeWhile_append_of_pos (by intro a ha; simpa using h a ha)]
  simp [List.takeWhile_cons]

theorem drop_append_len {α : Type} (l1 l2 : List α) (n m : Nat) (h : l1.length = n) :
    (l1 ++ l2).drop (n + m) = l2.drop m := by
  rw [← List.drop_drop, List.drop_left' h]

/-! ### Structure of a header produced by `fill_tar_header` -/

theorem headerBytes_fill (n : List Nat) (d : FileData) :
    headerBytes (fill_tar_header n d) =
      strncpyF 100 n ++ octalField 8 (d.mode % 4096) ++ octalField 8 d.uid ++
        octalField 8 d.gid ++ octalField 12 (d.content.length % 2 ^ 32) ++
        octalField 12 (d.mtime % 2 ^ 32) ++ (fill_tar_header n d).chksum ++
        [48] ++ List.replicate 100 0 ++ strncpyF 6 [117, 115, 116, 97, 114] ++
        [48, 48] ++ strncpyF 32 d.uname ++ strncpyF 32 d.gname ++
        octalField 8 d.devmajor ++ octalField 8 d.devminor ++
        List.replicate 155 0 ++ List.replicate 12 0 := rfl

theorem fill_chksum (n : List Nat) (d : FileData) :
    (fill_tar_header n d).chksum =
      octalField 8 (chksumValue (headerBytes
        { fill_tar_header n d with chksum := List.replicate 8 32 })) := rfl

theorem fill_chksum_length (n : List Nat) (d : FileData) :
    (fill_tar_header n d).chksum.length = 8 := by
  rw [fill_chksum]
  exact octalField_length 8 _ (by omega)

theorem octalField8_length (v : Nat) : (octalField 8 v).length = 8 :=
  octalField_length 8 v (by omega)

theorem octalField12_length (v : Nat) : (octalField 12 v).length = 12 :=
  octalField_length 12 v (by omega)

theorem headerBytes_fill_length (n : List Nat) (d : FileData) :
    (headerBytes (fill_tar_header n d)).length = 512 := by
  rw [headerBytes_fill]
  simp only [List.length_append, strncpyF_length, fill_chksum_length,
    octalField8_length, octalField12_length, List.length_replicate,
    List.length_cons, List.length_singleton, List.length_nil]

theorem headerBytes_fill_not_empty (n : List Nat) (d : FileData) :
    (headerBytes (fill_tar_header n d)).all (fun b => b == 0) = false := by
  rw [headerBytes_fill]
  simp [List.all_append]

theorem fill_strtol_size (n : List Nat) (d : FileData) :
    strtolOct ((headerBytes (fill_tar_header n d)).drop 124) =
      Int.ofNat (d.content.length % 2 ^ 32) := by
  rw [headerBytes_fill]
  simp only [List.append_assoc]
  rw [show (124 : Nat) = 100 + 24 from rfl,
    drop_append_len _ _ 100 24 (strncpyF_length 100 n),
    show (24 : Nat) = 8 + 16 from rfl,
    drop_append_len _ _ 8 16 (octalField_length 8 _ (by omega)),
    show (16 : Nat) = 8 + 8 from rfl,
    drop_append_len _ _ 8 8 (octalField_length 8 _ (by omega)),
    show (8 : Nat) = 8 + 0 from rfl,
    drop_append_len _ _ 8 0 (octalField_length 8 _ (by omega)),
    List.drop_zero]
  exact strtolOct_octalField 12 _ _ (by omega)
    (by
      have h := Nat.mod_lt d.content.length (y := 2 ^ 32) (by norm_num)
      omega)

theorem fill_drop345 (n : List Nat) (d : FileData) :
    (headerBytes (fill_tar_header n d)).drop 345 =
      List.replicate 155 0 ++ List.replicate 12 0 := by
  rw [headerBytes_fill]
  simp only [List.append_assoc]
  rw [show (345 : Nat) = 100 + 245 from rfl,
    drop_append_len _ _ 100 245 (strncpyF_length 100 n),
    show (245 : Nat) = 8 + 237 from rfl,
    drop_append_len _ _ 8 237 (octalField_length 8 _ (by omega)),
    show (237 : Nat) = 8 + 229 from rfl,
    drop_append_len _ _ 8 229 (octalField_length 8 _ (by omega)),
    show (229 : Nat) = 8 + 221 from rfl,
    drop_append_len _ _ 8 221 (octalField_length 8 _ (by omega)),
    show (221 : Nat) = 12 + 209 from rfl,
    drop_append_len _ _ 12 209 (octalField_length 12 _ (by omega)),
    show (209 : Nat) = 12 + 197 from rfl,
    drop_append_len _ _ 12 197 (octalField_length 12 _ (by omega)),
    show (197 : Nat) = 8 + 189 from rfl,
    drop_append_len _ _ 8 189 (fill_chksum_length n d),
    show (189 : Nat) = 1 + 188 from rfl,
    drop_append_len _ _ 1 188 (List.length_singleton 48),
    show (188 : Nat) = 100 + 88 from rfl,
    drop_append_len _ _ 100 88 (List.length_replicate 100 0),
    show (88 : Nat) = 6 + 82 from rfl,
    drop_append_len _ _ 6 82 (strncpyF_length 6 _),
    show (82 : Nat) = 2 + 80 from rfl,
    drop_append_len _ _ 2 80 (by rfl),
    show (80 : Nat) = 32 + 48 from rfl,
    drop_append_len _ _ 32 48 (strncpyF_length 32 _),
    show (48 : Nat) = 32 + 16 from rfl,
    drop_append_len _ _ 32 16 (strncpyF_length 32 _),
    show (16 : Nat) = 8 + 8 from rfl,
    drop_append_len _ _ 8 8 (octalField_length 8 _ (by omega)),
    show (8 : Nat) = 8 + 0 from rfl,
    drop_append_len _ _ 8 0 (octalField_length 8 _ (by omega)),
    List.drop_zero]

theorem fill_headD345 (n : List Nat) (d : FileData) :
    ((headerBytes (fill_tar_header n d)).drop 345).headD 0 = 0 := by
  rw [fill_drop345]
  rfl

theorem cstring_strncpyF_short (n R : List Nat) (h1 : n.length ≤ 99)
    (h2 : ∀ b ∈ n, b ≠ 0) : cstring (strncpyF 100 n ++ R) = n := by
  unfold strncpyF
  rw [List.take_of_length_le (by omega),
    show List.replicate (100 - n.length) 0 = 0 :: List.replicate (99 - n.length) 0 by
      rw [← List.replicate_succ]; congr 1; omega,
    List.append_assoc, List.cons_append]
  exact cstring_append_stop n _ h2

theorem fill_cstring_short (n : List Nat) (d : FileData) (h1 : n.length ≤ 99)
    (h2 : ∀ b ∈ n, b ≠ 0) :
    cstring (headerBytes (fill_tar_header n d)) = n := by
  rw [headerBytes_fill]
  simp only [List.append_assoc]
  exact cstring_strncpyF_short n _ h1 h2

theorem fill_cstring_long (n : List Nat) (d : FileData) (h1 : 100 ≤ n.length)
    (h2 : ∀ b ∈ n, b ≠ 0) :
    cstring (headerBytes (fill_tar_header n d)) =
      n.take 100 ++ octalPad 7 (d.mode % 4096) := by
  rw [headerBytes_fill]
  simp only [List.append_assoc]
  rw [show strncpyF 100 n = n.take 100 by
      unfold strncpyF; rw [show 100 - n.length = 0 by omega]; simp,
    octalField_of_lt 8 _ (by omega)
      (by have := Nat.mod_lt d.mode (y := 4096) (by omega); omega),
    List.append_assoc, List.singleton_append, ← List.append_assoc]
  refine cstring_append_stop _ _ ?_
  intro b hb
  rcases List.mem_append.mp hb with h | h
  · exact h2 b (List.take_subset 100 n h)
  · have := octalPad_digits 7 (d.mode % 4096) b h
    omega

/-! ### Content padding and the copy loop -/

theorem padContent_length (c : List Nat) :
    (padContent c).length = 512 * ((c.length + 511) / 512) := by
  simp only [padContent, zeros, List.length_append, List.length_replicate]
  omega

theorem padContent_take (c : List Nat) : (padContent c).take c.length = c := by
  unfold padContent
  exact List.take_left' rfl

theorem copyContent_spec : ∀ k (pad rest : List Nat) rem, pad.length = 512 * k →
    rem ≤ 512 * k → copyContent (pad ++ rest) k rem = some (pad.take rem) := by
  intro k
  induction k with
  | zero =>
    intro pad rest rem h1 h2
    have hp : pad = [] := List.eq_nil_of_length_eq_zero (by omega)
    subst hp
    rw [show rem = 0 by omega]
    rfl
  | succ k ih =>
    intro pad rest rem h1 h2
    simp only [copyContent]
    rw [if_neg (by simp only [List.length_append]; omega)]
    have hd : (pad ++ rest).drop 512 = pad.drop 512 ++ rest := by
      rw [List.drop_append_eq_append_drop, show 512 - pad.length = 0 by omega,
        List.drop_zero]
    have ht : (pad ++ rest).take 512 = pad.take 512 := by
      rw [List.take_append_eq_append_take, show 512 - pad.length = 0 by omega,
        List.take_zero, List.append_nil]
    rw [hd, ht, ih (pad.drop 512) rest (rem - min rem 512)
      (by simp only [List.length_drop]; omega) (by omega)]
    simp only [Option.some.injEq]
    rw [List.take_take]
    by_cases hrem : rem ≤ 512
    · rw [show min rem 512 = rem by omega, show rem - rem = 0 by omega,
        List.take_zero, List.append_nil, show min rem 512 = rem by omega]
    · rw [show min rem 512 = 512 by omega, show min 512 512 = 512 by omega,
        ← List.take_add]
      congr 1
      omega

/-! ### Unfolding lemmas for the scanner and extractor loops -/

theorem toNat_ofNat (n : Nat) : (Int.ofNat n).toNat = n := rfl

theorem ofNat_cast (n : Nat) : Int.ofNat n = (n : Int) := rfl

theorem tdivP_ofNat (a b : Nat) : tdivP (Int.ofNat a) b = Int.ofNat (a / b) := by
  unfold tdivP
  rw [if_pos (by simp only [ofNat_cast]; omega : (0 : Int) ≤ Int.ofNat a), toNat_ofNat]

theorem tdivP_size (s : Nat) :
    tdivP (Int.ofNat s + 511) 512 = Int.ofNat ((s + 511) / 512) := by
  rw [show Int.ofNat s + 511 = Int.ofNat (s + 511) by simp only [ofNat_cast]; omega,
    tdivP_ofNat]

theorem zeros_length (n : Nat) : (zeros n).length = n := by
  simp [zeros]

theorem zeros_all (n : Nat) : (zeros n).all (fun b => b == 0) = true := by
  simp [zeros, List.all_eq_true, List.mem_replicate]

theorem scanLoop_short (maxLen : Nat) (rest : List Nat) (acc : List (List Nat))
    (h : rest.length < 512) : scanLoop maxLen rest acc = some acc := by
  rw [scanLoop.eq_def, dif_pos h]

theorem scanLoop_stop_two_zeros (maxLen : Nat) (junk : List Nat)
    (acc : List (List Nat)) : scanLoop maxLen (zeros 1024 ++ junk) acc = some acc := by
  have hz : zeros 1024 ++ junk = zeros 512 ++ (zeros 512 ++ junk) := by
    simp [zeros, ← List.replicate_add, List.append_assoc]
  rw [hz, scanLoop.eq_def,
    dif_neg (by simp only [List.length_append, zeros_length]; omega),
    List.take_left' (zeros_length 512), zeros_all,
    if_pos rfl, List.drop_left' (zeros_length 512)]
  rw [if_neg (by simp only [List.length_append, zeros_length]; omega),
    List.take_left' (zeros_length 512), zeros_all, if_pos rfl]

theorem scanLoop_rewind (maxLen : Nat) (rest : List Nat) (acc : List (List Nat))
    (hlen : 512 ≤ rest.length)
    (hnz : (rest.take 512).all (fun b => b == 0) = false) :
    scanLoop maxLen (zeros 512 ++ rest) acc = scanLoop maxLen rest acc := by
  rw [scanLoop.eq_def,
    dif_neg (by simp only [List.length_append, zeros_length]; omega),
    List.take_left' (zeros_length 512), zeros_all,
    if_pos rfl, List.drop_left' (zeros_length 512),
    if_neg (by omega), hnz, if_neg Bool.false_ne_true]

theorem scanLoop_header (maxLen : Nat) (h rest : List Nat) (acc : List (List Nat))
    (s : Nat) (hlen : h.length = 512) (hnz : h.all (fun b => b == 0) = false)
    (hsz : strtolOct (h.drop 124) = Int.ofNat s) :
    scanLoop maxLen (h ++ rest) acc =
      scanLoop maxLen (rest.drop (512 * ((s + 511) / 512)))
        (acc ++ [(cstring h).take maxLen]) := by
  rw [scanLoop.eq_def,
    dif_neg (by simp only [List.length_append]; omega),
    List.take_left' hlen, hnz, if_neg Bool.false_ne_true, hsz, tdivP_size s,
    if_neg (by simp only [ofNat_cast]; omega : ¬ Int.ofNat ((s + 511) / 512) < 0),
    toNat_ofNat,
    drop_append_len h rest 512 (512 * ((s + 511) / 512)) hlen]

theorem extractLoop_short (rest : List Nat) (st : OutFS) (h : rest.length < 512) :
    extractLoop rest st = some st := by
  rw [extractLoop.eq_def, dif_pos h]

theorem extractLoop_stop_two_zeros (junk : List Nat) (st : OutFS) :
    extractLoop (zeros 1024 ++ junk) st = some st := by
  have hz : zeros 1024 ++ junk = zeros 512 ++ (zeros 512 ++ junk) := by
    simp [zeros, ← List.replicate_add, List.append_assoc]
  rw [hz, extractLoop.eq_def,
    dif_neg (by simp only [List.length_append, zeros_length]; omega),
    List.take_left' (zeros_length 512), zeros_all,
    if_pos rfl, List.drop_left' (zeros_length 512)]
  rw [if_neg (by simp only [List.length_append, zeros_length]; omega),
    List.take_left' (zeros_length 512), zeros_all, if_pos rfl]

theorem extractLoop_header (h pad rest : List Nat) (st : OutFS) (s : Nat)
    (hlen : h.length = 512) (hnz : h.all (fun b => b == 0) = false)
    (hsz : strtolOct (h.drop 124) = Int.ofNat s)
    (hpad : pad.length = 512 * ((s + 511) / 512)) :
    extractLoop (h ++ (pad ++ rest)) st =
      extractLoop rest (fsWrite st (entryPath h) (pad.take s)) := by
  have htake : (h ++ (pad ++ rest)).take 512 = h := List.take_left' hlen
  have hdrop : (h ++ (pad ++ rest)).drop 512 = pad ++ rest := List.drop_left' hlen
  rw [extractLoop.eq_def,
    dif_neg (by simp only [List.length_append]; omega),
    htake, hnz, if_neg Bool.false_ne_true, hsz, tdivP_size s]
  by_cases hs : s = 0
  · subst hs
    have hp : pad = [] := List.eq_nil_of_length_eq_zero (by rw [hpad])
    subst hp
    rw [if_pos (by norm_num : (Int.ofNat ((0 + 511) / 512) : Int) ≤ 0), hdrop]
    simp
  · have hq : 1 ≤ (s + 511) / 512 := by omega
    rw [if_neg (by simp only [ofNat_cast]; omega : ¬ Int.ofNat ((s + 511) / 512) ≤ 0),
      toNat_ofNat, toNat_ofNat, hdrop,
      copyContent_spec ((s + 511) / 512) pad rest s hpad (by omega)]
    dsimp only
    rw [drop_append_len h (pad ++ rest) 512 (512 * ((s + 511) / 512)) hlen,
      List.drop_left' hpad]

/-! ### Writer entries as seen by the scanner and the extractor -/

/-- Default file data, the `getD` filler where a lookup is known to succeed. -/
def dfltFD : FileData := ⟨[], 0, 0, 0, 0, [], [], 0, 0⟩

theorem fill_entryPath_short (n : List Nat) (d : FileData) (h2 : n.length ≤ 99)
    (h3 : ∀ b ∈ n, b ≠ 0) :
    entryPath (headerBytes (fill_tar_header n d)) = n := by
  unfold entryPath
  rw [if_neg (by rw [fill_headD345]; simp), fill_cstring_short n d h2 h3,
    List.take_of_length_le (by omega)]

theorem scanLoop_entry (maxLen : Nat) (n : List Nat) (d : FileData)
    (rest : List Nat) (acc : List (List Nat)) (h2 : n.length ≤ 99)
    (h3 : ∀ b ∈ n, b ≠ 0) (h4 : n.length ≤ maxLen)
    (h5 : d.content.length < 2 ^ 32) :
    scanLoop maxLen (entryBytes n d ++ rest) acc =
      scanLoop maxLen rest (acc ++ [n]) := by
  unfold entryBytes
  rw [List.append_assoc,
    scanLoop_header maxLen _ _ acc d.content.length (headerBytes_fill_length n d)
      (headerBytes_fill_not_empty n d)
      (by rw [fill_strtol_size, Nat.mod_eq_of_lt h5]),
    fill_cstring_short n d h2 h3, List.take_of_length_le h4,
    List.drop_left' (padContent_length d.content)]

theorem extractLoop_entry (n : List Nat) (d : FileData) (rest : List Nat)
    (st : OutFS) (h2 : n.length ≤ 99) (h3 : ∀ b ∈ n, b ≠ 0)
    (h5 : d.content.length < 2 ^ 32) :
    extractLoop (entryBytes n d ++ rest) st =
      extractLoop rest (fsWrite st n d.content) := by
  unfold entryBytes
  rw [List.append_assoc,
    extractLoop_header (headerBytes (fill_tar_header n d)) (padContent d.content)
      rest st d.content.length (headerBytes_fill_length n d)
      (headerBytes_fill_not_empty n d)
      (by rw [fill_strtol_size, Nat.mod_eq_of_lt h5]) (padContent_length d.content),
    fill_entryPath_short n d h2 h3, padContent_take]

/-- Concatenated bytes of a list of (name, data) entries. -/
def entriesBytes : List (List Nat × FileData) → List Nat
  | [] => []
  | p :: t => entryBytes p.1 p.2 ++ entriesBytes t

theorem extractLoop_entries :
    ∀ (es : List (List Nat × FileData)) (st : OutFS),
    (∀ p ∈ es, p.1.length ≤ 99 ∧ (∀ b ∈ p.1, b ≠ 0) ∧ p.2.content.length < 2 ^ 32) →
    extractLoop (entriesBytes es ++ zeros 1024) st =
      some (es.foldl (fun s p => fsWrite s p.1 p.2.content) st) := by
  intro es
  induction es with
  | nil =>
    intro st _
    have h := extractLoop_stop_two_zeros [] st
    rw [List.append_nil] at h
    simpa [entriesBytes] using h
  | cons p t ih =>
    intro st hv
    obtain ⟨hp1, hp2, hp3⟩ := hv p (List.mem_cons_self p t)
    rw [entriesBytes, List.append_assoc, extractLoop_entry p.1 p.2 _ st hp1 hp2 hp3,
      ih _ (fun q hq => hv q (List.mem_cons_of_mem p hq))]
    rfl

theorem scanLoop_entries (maxLen : Nat) :
    ∀ (es : List (List Nat × FileData)) (acc : List (List Nat)),
    (∀ p ∈ es, p.1.length ≤ 99 ∧ (∀ b ∈ p.1, b ≠ 0) ∧ p.1.length ≤ maxLen ∧
      p.2.content.length < 2 ^ 32) →
    scanLoop maxLen (entriesBytes es ++ zeros 1024) acc =
      some (acc ++ es.map (fun p => p.1)) := by
  intro es
  induction es with
  | nil =>
    intro acc _
    have h := scanLoop_stop_two_zeros maxLen [] acc
    rw [List.append_nil] at h
    simpa [entriesBytes] using h
  | cons p t ih =>
    intro acc hv
    obtain ⟨hp1, hp2, hp3, hp4⟩ := hv p (List.mem_cons_self p t)
    rw [entriesBytes, List.append_assoc,
      scanLoop_entry maxLen p.1 p.2 _ acc hp1 hp2 hp3 hp4,
      ih _ (fun q hq => hv q (List.mem_cons_of_mem p hq))]
    simp

theorem writeEntriesP_spec (fs : InFS) : ∀ files : List (List Nat),
    (∀ m ∈ files, (alookup fs m).isSome) →
    writeEntriesP fs files =
      (true, entriesBytes (files.map (fun m => (m, (alookup fs m).getD dfltFD)))) := by
  intro files
  induction files with
  | nil => intro _; rfl
  | cons n t ih =>
    intro h
    have hn := h n (List.mem_cons_self n t)
    obtain ⟨d, hd⟩ := Option.isSome_iff_exists.mp hn
    rw [writeEntriesP, hd, ih (fun m hm => h m (List.mem_cons_of_mem n hm))]
    simp [entriesBytes, hd]

theorem remove_trailing_footer (E : List Nat) :
    remove_trailing_bytes (E ++ zeros 1024) 1024 = E := by
  unfold remove_trailing_bytes
  rw [if_neg (by simp only [List.length_append, zeros_length]; omega),
    show (E ++ zeros 1024).length - 1024 = E.length by
      simp only [List.length_append, zeros_length]; omega]
  exact List.take_left E (zeros 1024)

/-! ### Lookup after a sequence of extraction writes -/

theorem alookup_foldl_not_mem :
    ∀ (files : List (List Nat)) (g : List Nat → List Nat) (st : OutFS) (n : List Nat),
    n ∉ files →
    alookup (files.foldl (fun s m => fsWrite s m (g m)) st) n = alookup st n := by
  intro files
  induction files with
  | nil => intro g st n _; rfl
  | cons m t ih =>
    intro g st n hn
    rw [List.foldl_cons, ih g _ n (fun hc => hn (List.mem_cons_of_mem m hc))]
    have hne : m ≠ n := fun hc => hn (hc ▸ List.mem_cons_self m t)
    simp [fsWrite, alookup, hne]

theorem alookup_foldl_mem :
    ∀ (files : List (List Nat)) (g : List Nat → List Nat) (st : OutFS) (n : List Nat),
    n ∈ files →
    alookup (files.foldl (fun s m => fsWrite s m (g m)) st) n = some (g n) := by
  intro files
  induction files with
  | nil => intro g st n hn; cases hn
  | cons m t ih =>
    intro g st n hn
    by_cases ht : n ∈ t
    · rw [List.foldl_cons, ih g _ n ht]
    · have hm : n = m := by
        rcases List.mem_cons.mp hn with h | h
        · exact h
        · exact absurd h ht
      subst hm
      rw [List.foldl_cons, alookup_foldl_not_mem t g _ n ht]
      simp [fsWrite, alookup]

/-! ### Writer results and long-name paths -/

theorem create_archive_spec (fs : InFS) (files : List (List Nat))
    (h : ∀ m ∈ files, (alookup fs m).isSome) :
    create_archive fs files =
      (true, entriesBytes (files.map (fun m => (m, (alookup fs m).getD dfltFD))) ++
        zeros 1024) := by
  unfold create_archive
  rw [writeEntriesP_spec fs files h]
  rfl

theorem append_archive_spec (E : List Nat) (fs : InFS) (files : List (List Nat))
    (h : ∀ m ∈ files, (alookup fs m).isSome) :
    append_files_to_archive (E ++ zeros 1024) fs files =
      (true, E ++ (entriesBytes (files.map (fun m => (m, (alookup fs m).getD dfltFD))) ++
        zeros 1024)) := by
  unfold append_files_to_archive
  rw [writeEntriesP_spec fs files h, remove_trailing_footer E]
  rfl

theorem cstring_append_of_contains (xs ys : List Nat) (hc : (0 : Nat) ∈ xs) :
    cstring (xs ++ ys) = cstring xs := by
  unfold cstring
  rw [List.takeWhile_append]
  by_cases h : (xs.takeWhile fun b => b != 0).length = xs.length
  · exfalso
    have hx : xs.takeWhile (fun b => b != 0) = xs :=
      (List.takeWhile_prefix _).eq_of_length h
    have hm : (0 : Nat) ∈ xs.takeWhile (fun b => b != 0) := by rw [hx]; exact hc
    have := List.mem_takeWhile_imp hm
    simp at this
  · rw [if_neg h]

theorem cstring_take100 (h : List Nat) (hterm : (0 : Nat) ∈ h.take 100) :
    cstring h = cstring (h.take 100) := by
  conv_lhs => rw [← List.take_append_drop 100 h]
  exact cstring_append_of_contains _ _ hterm

theorem fill_entryPath_long (n : List Nat) (d : FileData) (h2 : 100 ≤ n.length)
    (h3 : ∀ b ∈ n, b ≠ 0) :
    entryPath (headerBytes (fill_tar_header n d)) =
      n.take 100 ++ octalPad 7 (d.mode % 4096) := by
  unfold entryPath
  have hL := octRep_length_le (d.mode % 4096) 7
    (by have := Nat.mod_lt d.mode (y := 4096) (by omega); omega) (by omega)
  rw [if_neg (by rw [fill_headD345]; simp), fill_cstring_long n d h2 h3,
    List.take_of_length_le (by
      simp only [List.length_append, List.length_take, octalPad_length]
      omega)]

theorem extractLoop_entry_long (n : List Nat) (d : FileData) (rest : List Nat)
    (st : OutFS) (h2 : 100 ≤ n.length) (h3 : ∀ b ∈ n, b ≠ 0)
    (h5 : d.content.length < 2 ^ 32) :
    extractLoop (entryBytes n d ++ rest) st =
      extractLoop rest
        (fsWrite st (n.take 100 ++ octalPad 7 (d.mode % 4096)) d.content) := by
  unfold entryBytes
  rw [List.append_assoc,
    extractLoop_header (headerBytes (fill_tar_header n d)) (padContent d.content)
      rest st d.content.length (headerBytes_fill_length n d)
      (headerBytes_fill_not_empty n d)
      (by rw [fill_strtol_size, Nat.mod_eq_of_lt h5]) (padContent_length d.content),
    fill_entryPath_long n d h2 h3, padContent_take]

/-! ### Claim theorems -/

/-- C7: `remove_trailing_bytes` resizes the file to `s - n_bytes` when
`n_bytes ≤ s` and truncates to exactly zero length, without erroring, when
`n_bytes > s` — both cases are the truncated-subtraction equation below. -/
theorem C7_remove_trailing (file : List Nat) (n : Nat) :
    remove_trailing_bytes file n = file.take (file.length - n) ∧
    (remove_trailing_bytes file n).length = file.length - n := by
  have he : remove_trailing_bytes file n = file.take (file.length - n) := by
    unfold remove_trailing_bytes
    by_cases hc : n > file.length
    · rw [if_pos hc, show file.length - n = 0 by omega]
    · rw [if_neg hc]
  refine ⟨he, ?_⟩
  rw [he, List.length_take]
  omega

/-- C8: after yielding an entry whose header block decodes content size `s`,
the scanner resumes exactly `ceil(s / 512)` content blocks further on, so the
next block read is the next header or end-marker block. -/
theorem C8_skip_blocks (maxLen : Nat) (h rest : List Nat) (acc : List (List Nat))
    (s : Nat) (hlen : h.length = 512) (hnz : h.all (fun b => b == 0) = false)
    (hsz : strtolOct (h.drop 124) = Int.ofNat s) :
    scanLoop maxLen (h ++ rest) acc =
      scanLoop maxLen (rest.drop (512 * ((s + 511) / 512)))
        (acc ++ [(cstring h).take maxLen]) :=
  scanLoop_header maxLen h rest acc s hlen hnz hsz

theorem C8_skip_blocks_witness :
    ([49] ++ zeros 511).length = 512 ∧
    (([49] ++ zeros 511).all (fun b => b == 0)) = false ∧
    strtolOct (([49] ++ zeros 511).drop 124) = Int.ofNat 0 ∧
    scanLoop 127 (([49] ++ zeros 511) ++ []) [] =
      scanLoop 127 (([] : List Nat).drop (512 * ((0 + 511) / 512)))
        ([] ++ [(cstring ([49] ++ zeros 511)).take 127]) :=
  ⟨by decide, by decide, by decide,
    C8_skip_blocks 127 ([49] ++ zeros 511) [] [] 0 (by decide) (by decide) (by decide)⟩

/-- C5: the update operation (main's `-u` branch) first lists the archive;
if any requested name is missing from that list it fails with the archive
bytes — hence its end marker and entry count — untouched, and only when
every name is present does it delegate to append. -/
theorem C5_update_gate (maxLen : Nat) (archive : List Nat) (fs : InFS)
    (files : List (List Nat)) (l : List (List Nat))
    (hscan : get_archive_file_list maxLen archive = some l) :
    update_archive maxLen archive fs files =
      if files.all (fun n => l.contains n) then append_files_to_archive archive fs files
      else (false, archive) := by
  unfold update_archive
  rw [hscan]

theorem C5_update_gate_witness :
    get_archive_file_list 127 (zeros 1024) = some [] ∧
    update_archive 127 (zeros 1024) [] [[98]] =
      (if ([[98]] : List (List Nat)).all (fun n => ([] : List (List Nat)).contains n)
        then append_files_to_archive (zeros 1024) [] [[98]]
        else (false, zeros 1024)) := by
  have hscan : get_archive_file_list 127 (zeros 1024) = some [] := by
    have h := scanLoop_stop_two_zeros 127 [] ([] : List (List Nat))
    rwa [List.append_nil] at h
  exact ⟨hscan, C5_update_gate 127 (zeros 1024) [] [[98]] [] hscan⟩

/-- Metadata used by the concrete counterexample files: empty content, mode
0644, uid/gid 0, owner and group name "u". -/
def cexMeta : FileData := ⟨[], 420, 0, 0, 0, [117], [117], 0, 0⟩

/-- C2 (code bug): for the file named by the single byte 0xFF, the stored
checksum differs from the spec's unsigned byte-sum re-encoding, because the
summation loop at minitar.c:43-44 adds `char` values, which are signed on
the target, while the function's own comment (minitar.c:34) says the bytes
are "treated as unsigned values".  The second conjunct shows what the code
stores instead: the sign-extended sum wrapped to 32 bits. -/
theorem C2_checksum_signed_char :
    (fill_tar_header [255] cexMeta).chksum ≠
      unsignedChecksumOctal (fill_tar_header [255] cexMeta) ∧
    (fill_tar_header [255] cexMeta).chksum =
      octalField 8 (chksumValue (headerBytes
        { fill_tar_header [255] cexMeta with chksum := List.replicate 8 32 })) := by
  constructor
  · decide
  · exact fill_chksum [255] cexMeta

/-- C9 counterexample: for a 100-byte path the name field holds exactly the
first 100 bytes and no NUL terminator, so it is not stored as a
null-terminated string as the claim (and the data model) assert. -/
theorem C9_counterexample :
    (fill_tar_header (List.replicate 100 97) cexMeta).name =
      List.replicate 100 97 ∧
    (fill_tar_header (List.replicate 100 97) cexMeta).name.contains 0 = false := by
  constructor
  · decide
  · decide

/-- C9 amended: `fill_tar_header` stores the first 100 bytes of the path in
the name field, padding with NULs only when the path is at most 99 bytes
(so only then is it null-terminated), and never populates the prefix field.
The hypothesis records that a C path contains no NUL byte. -/
theorem C9_amended (n : List Nat) (d : FileData) (h3 : ∀ b ∈ n, b ≠ 0) :
    (fill_tar_header n d).name = n.take 100 ++ List.replicate (100 - n.length) 0 ∧
    (fill_tar_header n d).prefixField = List.replicate 155 0 :=
  ⟨rfl, rfl⟩

theorem C9_amended_witness :
    (∀ b ∈ [97], b ≠ 0) ∧
    ((fill_tar_header [97] cexMeta).name =
        [97].take 100 ++ List.replicate (100 - [97].length) 0 ∧
      (fill_tar_header [97] cexMeta).prefixField = List.replicate 155 0) :=
  ⟨by decide, C9_amended [97] cexMeta (by decide)⟩

/-- C3 counterexample: a well-formed single-header archive with no end
marker at all (512 bytes, so it cannot contain two consecutive zero blocks)
still makes the scanner terminate, with success, at the short read — so the
scanner does not terminate *exactly* on two consecutive zero blocks. -/
theorem C3_counterexample :
    get_archive_file_list 127 ([49] ++ zeros 511) = some [[49]] ∧
    ([49] ++ zeros 511).length < 1024 := by
  constructor
  · show scanLoop 127 ([49] ++ zeros 511) [] = some [[49]]
    have h := scanLoop_header 127 ([49] ++ zeros 511) [] [] 0 (by decide) (by decide)
      (by decide)
    rw [List.append_nil] at h
    rw [h, List.drop_nil, scanLoop_short 127 [] _ (by simp)]
    decide
  · decide

/-- C3 amended: the scanner stops yielding exactly when it reads two
consecutive all-zero blocks or hits a short read (end of input): a two-zero
archive lists nothing; two zero blocks stop the scan whatever follows; a
single zero block followed by a readable non-zero block does not stop it —
the scanner rewinds and treats that block as a header; a short read stops
the scan with what was already listed. -/
theorem C3_amended (maxLen : Nat) (junk rest1 rest2 : List Nat)
    (acc : List (List Nat)) (h1 : 512 ≤ rest1.length)
    (h2 : (rest1.take 512).all (fun b => b == 0) = false)
    (h3 : rest2.length < 512) :
    get_archive_file_list maxLen (zeros 1024) = some [] ∧
    scanLoop maxLen (zeros 1024 ++ junk) acc = some acc ∧
    scanLoop maxLen (zeros 512 ++ rest1) acc = scanLoop maxLen rest1 acc ∧
    scanLoop maxLen rest2 acc = some acc := by
  refine ⟨?_, scanLoop_stop_two_zeros maxLen junk acc,
    scanLoop_rewind maxLen rest1 acc h1 h2, scanLoop_short maxLen rest2 acc h3⟩
  have h := scanLoop_stop_two_zeros maxLen [] ([] : List (List Nat))
  rwa [List.append_nil] at h

theorem C3_amended_witness :
    512 ≤ ([49] ++ zeros 511).length ∧
    ((([49] ++ zeros 511).take 512).all (fun b => b == 0)) = false ∧
    ([7] : List Nat).length < 512 ∧
    (get_archive_file_list 127 (zeros 1024) = some [] ∧
      scanLoop 127 (zeros 1024 ++ [1]) [[5]] = some [[5]] ∧
      scanLoop 127 (zeros 512 ++ ([49] ++ zeros 511)) [[5]] =
        scanLoop 127 ([49] ++ zeros 511) [[5]] ∧
      scanLoop 127 [7] [[5]] = some [[5]]) :=
  ⟨by decide, by decide, by decide,
    C3_amended 127 [1] ([49] ++ zeros 511) [7] [[5]] (by decide) (by decide) (by decide)⟩

/-- Second version of the duplicate-name witness file: content "2". -/
def c4d2 : FileData := ⟨[50], 420, 0, 0, 0, [117], [117], 0, 0⟩

/-- C4 amended: for a duplicated name of at most 99 NUL-free bytes (stored
null-terminated) and contents below 2^32 bytes: create an archive with one
file, append a same-named file with new content, extract — entries are
replayed in archive order and each open-for-write shadows the previous
file, so the extracted file holds exactly the content of the last (most
recently appended) entry. -/
theorem C4_last_version_wins (a : List Nat) (d1 d2 : FileData) (fs1 fs2 : InFS)
    (h2 : a.length ≤ 99) (h3 : ∀ x ∈ a, x ≠ 0)
    (hl1 : alookup fs1 a = some d1) (hl2 : alookup fs2 a = some d2)
    (hc1 : d1.content.length < 2 ^ 32) (hc2 : d2.content.length < 2 ^ 32) :
    (create_archive fs1 [a]).1 = true ∧
    (append_files_to_archive (create_archive fs1 [a]).2 fs2 [a]).1 = true ∧
    ((extract_files_from_archive
        (append_files_to_archive (create_archive fs1 [a]).2 fs2 [a]).2 []).bind
      (fun out => alookup out a)) = some d2.content := by
  have hw1 : writeEntriesP fs1 [a] = (true, entryBytes a d1 ++ []) := by
    simp only [writeEntriesP, hl1]
  have hw2 : writeEntriesP fs2 [a] = (true, entryBytes a d2 ++ []) := by
    simp only [writeEntriesP, hl2]
  have hcr : create_archive fs1 [a] = (true, (entryBytes a d1 ++ []) ++ zeros 1024) := by
    unfold create_archive
    rw [hw1]
    rfl
  have hap : append_files_to_archive ((entryBytes a d1 ++ []) ++ zeros 1024) fs2 [a] =
      (true, (entryBytes a d1 ++ []) ++ ((entryBytes a d2 ++ []) ++ zeros 1024)) := by
    unfold append_files_to_archive
    rw [hw2, remove_trailing_footer]
    rfl
  refine ⟨by rw [hcr], by rw [hcr, hap], ?_⟩
  rw [hcr, hap]
  show (extractLoop _ []).bind _ = _
  have hsh : (entryBytes a d1 ++ []) ++ ((entryBytes a d2 ++ []) ++ zeros 1024) =
      entryBytes a d1 ++ (entryBytes a d2 ++ zeros 1024) := by
    simp
  rw [hsh, extractLoop_entry a d1 _ [] h2 h3 hc1,
    extractLoop_entry a d2 _ _ h2 h3 hc2]
  have hstop := extractLoop_stop_two_zeros []
    (fsWrite (fsWrite [] a d1.content) a d2.content)
  rw [List.append_nil] at hstop
  rw [hstop]
  simp [fsWrite, alookup]

theorem C4_last_version_wins_witness :
    ([97] : List Nat).length ≤ 99 ∧ (∀ x ∈ [97], x ≠ 0) ∧
    alookup [([97], cexMeta)] [97] = some cexMeta ∧
    alookup [([97], c4d2)] [97] = some c4d2 ∧
    cexMeta.content.length < 2 ^ 32 ∧ c4d2.content.length < 2 ^ 32 ∧
    ((create_archive [([97], cexMeta)] [[97]]).1 = true ∧
      (append_files_to_archive (create_archive [([97], cexMeta)] [[97]]).2
        [([97], c4d2)] [[97]]).1 = true ∧
      ((extract_files_from_archive
          (append_files_to_archive (create_archive [([97], cexMeta)] [[97]]).2
            [([97], c4d2)] [[97]]).2 []).bind
        (fun out => alookup out [97])) = some c4d2.content) :=
  ⟨by decide, by decide, by decide, by decide, by decide, by decide,
    C4_last_version_wins [97] cexMeta c4d2 [([97], cexMeta)] [([97], c4d2)]
      (by decide) (by decide) (by decide) (by decide) (by decide) (by decide)⟩

/-- C10: for an entry whose header block has a non-empty prefix field,
listing reports only the name field (the C string starting at the name
field, which the hypothesis `hterm` confines to the first 100 bytes, taken
up to MAX_NAME_LEN), while extraction writes the file to
`prefix + "/" + name`; the two can therefore disagree for the same entry. -/
theorem C10_list_vs_extract (maxLen : Nat) (h pad : List Nat) (st : OutFS)
    (s : Nat) (hlen : h.length = 512)
    (hnz : h.all (fun b => b == 0) = false)
    (hsz : strtolOct (h.drop 124) = Int.ofNat s)
    (hpad : pad.length = 512 * ((s + 511) / 512))
    (hpre : (h.drop 345).headD 0 ≠ 0)
    (hterm : (0 : Nat) ∈ h.take 100) :
    get_archive_file_list maxLen (h ++ (pad ++ zeros 1024)) =
      some [(cstring (h.take 100)).take maxLen] ∧
    extract_files_from_archive (h ++ (pad ++ zeros 1024)) st =
      some (fsWrite st ((cstring (h.drop 345) ++ [47] ++ cstring h).take 255)
        (pad.take s)) := by
  constructor
  · show scanLoop maxLen (h ++ (pad ++ zeros 1024)) [] = _
    rw [scanLoop_header maxLen h _ [] s hlen hnz hsz, List.drop_left' hpad]
    have hstop := scanLoop_stop_two_zeros maxLen []
      ([] ++ [(cstring h).take maxLen])
    rw [List.append_nil] at hstop
    rw [hstop, cstring_take100 h hterm]
    simp
  · show extractLoop (h ++ (pad ++ zeros 1024)) st = _
    rw [extractLoop_header h pad (zeros 1024) st s hlen hnz hsz hpad]
    have hstop := extractLoop_stop_two_zeros []
      (fsWrite st (entryPath h) (pad.take s))
    rw [List.append_nil] at hstop
    rw [hstop]
    unfold entryPath
    rw [if_pos hpre]

theorem C10_list_vs_extract_witness :
    ([97] ++ zeros 344 ++ [112] ++ zeros 166).length = 512 ∧
    (([97] ++ zeros 344 ++ [112] ++ zeros 166).all (fun b => b == 0)) = false ∧
    strtolOct (([97] ++ zeros 344 ++ [112] ++ zeros 166).drop 124) = Int.ofNat 0 ∧
    ([] : List Nat).length = 512 * ((0 + 511) / 512) ∧
    ((([97] ++ zeros 344 ++ [112] ++ zeros 166).drop 345).headD 0 ≠ 0) ∧
    ((0 : Nat) ∈ ([97] ++ zeros 344 ++ [112] ++ zeros 166).take 100) ∧
    (get_archive_file_list 127
        (([97] ++ zeros 344 ++ [112] ++ zeros 166) ++ ([] ++ zeros 1024)) =
      some [(cstring (([97] ++ zeros 344 ++ [112] ++ zeros 166).take 100)).take 127] ∧
     extract_files_from_archive
        (([97] ++ zeros 344 ++ [112] ++ zeros 166) ++ ([] ++ zeros 1024)) [] =
      some (fsWrite []
        ((cstring (([97] ++ zeros 344 ++ [112] ++ zeros 166).drop 345) ++ [47] ++
          cstring ([97] ++ zeros 344 ++ [112] ++ zeros 166)).take 255)
        (([] : List Nat).take 0))) :=
  ⟨by decide, by decide, by decide, by decide, by decide, by decide,
    C10_list_vs_extract 127 ([97] ++ zeros 344 ++ [112] ++ zeros 166) [] [] 0
      (by decide) (by decide) (by decide) (by decide) (by decide) (by decide)⟩

/-- C1 amended: for files whose names fit null-terminated in the 100-byte
name field (1..99 NUL-free bytes) and whose sizes fit the `(unsigned)` cast
at minitar.c:124 (below 2^32), create followed by extract into a clean
directory reproduces, under each listed name, a file with byte-identical
content. -/
theorem C1_roundtrip (fs : InFS) (files : List (List Nat)) (n : List Nat)
    (hmem : n ∈ files)
    (hv : ∀ m ∈ files, 1 ≤ m.length ∧ m.length ≤ 99 ∧ (∀ b ∈ m, b ≠ 0) ∧
      (alookup fs m).isSome ∧
      ((alookup fs m).map (fun d => d.content.length)).getD 0 < 2 ^ 32) :
    (create_archive fs files).1 = true ∧
    ((extract_files_from_archive (create_archive fs files).2 []).bind
      (fun out => alookup out n)) = (alookup fs n).map FileData.content := by
  have hok : ∀ m ∈ files, (alookup fs m).isSome := fun m hm => ((hv m hm).2.2.2).1
  have hcreate := create_archive_spec fs files hok
  have hval : ∀ p ∈ files.map (fun m => (m, (alookup fs m).getD dfltFD)),
      p.1.length ≤ 99 ∧ (∀ b ∈ p.1, b ≠ 0) ∧ p.2.content.length < 2 ^ 32 := by
    intro p hp
    obtain ⟨m, hm, rfl⟩ := List.mem_map.mp hp
    obtain ⟨d, hd⟩ := Option.isSome_iff_exists.mp (((hv m hm).2.2.2).1)
    have h5 := ((hv m hm).2.2.2).2
    rw [hd] at h5
    refine ⟨(hv m hm).2.1, (hv m hm).2.2.1, ?_⟩
    rw [hd]
    simpa using h5
  refine ⟨by rw [hcreate], ?_⟩
  rw [hcreate]
  show (extractLoop (entriesBytes _ ++ zeros 1024) []).bind _ = _
  rw [extractLoop_entries _ [] hval, Option.some_bind, List.foldl_map]
  obtain ⟨d, hd⟩ := Option.isSome_iff_exists.mp (((hv n hmem).2.2.2).1)
  have hthis := alookup_foldl_mem files
    (fun m => ((alookup fs m).getD dfltFD).content) [] n hmem
  exact hthis.trans (by simp [hd])

theorem C1_roundtrip_witness :
    ([97] ∈ [[97]]) ∧
    (∀ m ∈ [[97]], 1 ≤ m.length ∧ m.length ≤ 99 ∧ (∀ b ∈ m, b ≠ 0) ∧
      (alookup [([97], c4d2)] m).isSome ∧
      ((alookup [([97], c4d2)] m).map (fun d => d.content.length)).getD 0 < 2 ^ 32) ∧
    ((create_archive [([97], c4d2)] [[97]]).1 = true ∧
      ((extract_files_from_archive (create_archive [([97], c4d2)] [[97]]).2 []).bind
        (fun out => alookup out [97])) =
        (alookup [([97], c4d2)] [97]).map FileData.content) :=
  ⟨by decide, by decide, C1_roundtrip [([97], c4d2)] [[97]] [97] (by decide) (by decide)⟩

/-- The two colliding long-named counterexample files: both names share
their first 100 bytes, so both headers store the same truncated name. -/
def cexFS : InFS :=
  [(List.replicate 100 97 ++ [98], ⟨[49], 420, 0, 0, 0, [117], [117], 0, 0⟩),
   (List.replicate 100 97 ++ [99], ⟨[50], 420, 0, 0, 0, [117], [117], 0, 0⟩)]

def cexD1 : FileData := ⟨[49], 420, 0, 0, 0, [117], [117], 0, 0⟩

def cexD2 : FileData := ⟨[50], 420, 0, 0, 0, [117], [117], 0, 0⟩

/-- The single path both counterexample entries extract to: the unterminated
100-byte name field runs into the mode field's octal digits. -/
def cexPath : List Nat := List.replicate 100 97 ++ octalPad 7 420

/-- C1 counterexample: two existing, readable regular files whose 101-byte
names differ only in the last byte.  Create succeeds, extraction succeeds,
but both entries extract to the same (mangled) path, the second overwriting
the first, so no extracted file has the first file's content `[49]` — the
round trip as claimed fails. -/
theorem C1_counterexample :
    (create_archive cexFS [List.replicate 100 97 ++ [98],
        List.replicate 100 97 ++ [99]]).1 = true ∧
    extract_files_from_archive
      (create_archive cexFS [List.replicate 100 97 ++ [98],
        List.replicate 100 97 ++ [99]]).2 [] =
      some [(cexPath, [50]), (cexPath, [49])] ∧
    ¬ ∃ p, alookup [(cexPath, [50]), (cexPath, [49])] p = some [49] := by
  have hl1 : alookup cexFS (List.replicate 100 97 ++ [98]) = some cexD1 := by decide
  have hl2 : alookup cexFS (List.replicate 100 97 ++ [99]) = some cexD2 := by decide
  have hw : writeEntriesP cexFS [List.replicate 100 97 ++ [98],
      List.replicate 100 97 ++ [99]] =
      (true, entryBytes (List.replicate 100 97 ++ [98]) cexD1 ++
        (entryBytes (List.replicate 100 97 ++ [99]) cexD2 ++ [])) := by
    simp only [writeEntriesP, hl1, hl2]
  have hcr : create_archive cexFS [List.replicate 100 97 ++ [98],
      List.replicate 100 97 ++ [99]] =
      (true, (entryBytes (List.replicate 100 97 ++ [98]) cexD1 ++
        (entryBytes (List.replicate 100 97 ++ [99]) cexD2 ++ [])) ++ zeros 1024) := by
    unfold create_archive
    rw [hw]
    rfl
  refine ⟨by rw [hcr], ?_, ?_⟩
  · rw [hcr]
    show extractLoop _ [] = _
    have hsh : (entryBytes (List.replicate 100 97 ++ [98]) cexD1 ++
        (entryBytes (List.replicate 100 97 ++ [99]) cexD2 ++ [])) ++ zeros 1024 =
        entryBytes (List.replicate 100 97 ++ [98]) cexD1 ++
          (entryBytes (List.replicate 100 97 ++ [99]) cexD2 ++ zeros 1024) := by
      simp
    rw [hsh,
      extractLoop_entry_long (List.replicate 100 97 ++ [98]) cexD1 _ []
        (by decide) (by decide) (by decide),
      extractLoop_entry_long (List.replicate 100 97 ++ [99]) cexD2 _ _
        (by decide) (by decide) (by decide)]
    have hstop := extractLoop_stop_two_zeros []
      (fsWrite (fsWrite [] ((List.replicate 100 97 ++ [98]).take 100 ++
          octalPad 7 (cexD1.mode % 4096)) cexD1.content)
        ((List.replicate 100 97 ++ [99]).take 100 ++
          octalPad 7 (cexD2.mode % 4096)) cexD2.content)
    rw [List.append_nil] at hstop
    rw [hstop]
    decide
  · intro hex
    obtain ⟨p, hp⟩ := hex
    by_cases hc : cexPath = p
    · rw [show alookup [(cexPath, [50]), (cexPath, [49])] p = some [50] by
          simp only [alookup]
          rw [if_pos hc]] at hp
      exact absurd hp (by decide)
    · rw [show alookup [(cexPath, [50]), (cexPath, [49])] p = none by
          simp only [alookup]
          rw [if_neg hc, if_neg hc]] at hp
      exact Option.noConfusion hp

/-- C6 amended: for names of at most 99 NUL-free bytes (stored
null-terminated) that MAX_NAME_LEN does not truncate, and sizes below 2^32:
`create([a, b])` then `append([c])` then list yields `[a, b, c]` in order;
the appended archive equals the created one with the two-block end marker
removed (`remove_trailing_bytes _ 1024`), the new entry written at the end,
and a fresh two-block end marker after it. -/
theorem C6_append_then_list (maxLen : Nat) (a b c : List Nat)
    (da db dc : FileData) (fs1 fs2 : InFS)
    (ha2 : a.length ≤ 99) (ha3 : ∀ x ∈ a, x ≠ 0) (ha4 : a.length ≤ maxLen)
    (hb2 : b.length ≤ 99) (hb3 : ∀ x ∈ b, x ≠ 0) (hb4 : b.length ≤ maxLen)
    (hc2 : c.length ≤ 99) (hc3 : ∀ x ∈ c, x ≠ 0) (hc4 : c.length ≤ maxLen)
    (hla : alookup fs1 a = some da) (hlb : alookup fs1 b = some db)
    (hlc : alookup fs2 c = some dc)
    (hda : da.content.length < 2 ^ 32) (hdb : db.content.length < 2 ^ 32)
    (hdc : dc.content.length < 2 ^ 32) :
    (create_archive fs1 [a, b]).1 = true ∧
    (append_files_to_archive (create_archive fs1 [a, b]).2 fs2 [c]).1 = true ∧
    get_archive_file_list maxLen
      (append_files_to_archive (create_archive fs1 [a, b]).2 fs2 [c]).2 =
      some [a, b, c] ∧
    (append_files_to_archive (create_archive fs1 [a, b]).2 fs2 [c]).2 =
      remove_trailing_bytes (create_archive fs1 [a, b]).2 1024 ++
        (entryBytes c dc ++ zeros 1024) := by
  have hw1 : writeEntriesP fs1 [a, b] =
      (true, entryBytes a da ++ (entryBytes b db ++ [])) := by
    simp only [writeEntriesP, hla, hlb]
  have hw2 : writeEntriesP fs2 [c] = (true, entryBytes c dc ++ []) := by
    simp only [writeEntriesP, hlc]
  have hcr : create_archive fs1 [a, b] =
      (true, (entryBytes a da ++ (entryBytes b db ++ [])) ++ zeros 1024) := by
    unfold create_archive
    rw [hw1]
    rfl
  have hap : append_files_to_archive
      ((entryBytes a da ++ (entryBytes b db ++ [])) ++ zeros 1024) fs2 [c] =
      (true, (entryBytes a da ++ (entryBytes b db ++ [])) ++
        ((entryBytes c dc ++ []) ++ zeros 1024)) := by
    unfold append_files_to_archive
    rw [hw2, remove_trailing_footer]
    rfl
  refine ⟨by rw [hcr], by rw [hcr, hap], ?_, ?_⟩
  · rw [hcr, hap]
    show scanLoop maxLen _ [] = _
    have hsh : (entryBytes a da ++ (entryBytes b db ++ [])) ++
        ((entryBytes c dc ++ []) ++ zeros 1024) =
        entryBytes a da ++ (entryBytes b db ++ (entryBytes c dc ++ zeros 1024)) := by
      simp
    rw [hsh, scanLoop_entry maxLen a da _ [] ha2 ha3 ha4 hda,
      scanLoop_entry maxLen b db _ _ hb2 hb3 hb4 hdb,
      scanLoop_entry maxLen c dc _ _ hc2 hc3 hc4 hdc]
    have hstop := scanLoop_stop_two_zeros maxLen [] ((([] ++ [a]) ++ [b]) ++ [c])
    rw [List.append_nil] at hstop
    rw [hstop]
    simp
  · rw [hcr, hap, remove_trailing_footer]
    simp

theorem C6_append_then_list_witness :
    ([97] : List Nat).length ≤ 99 ∧ (∀ x ∈ [97], x ≠ 0) ∧
    ([97] : List Nat).length ≤ 127 ∧
    ([98] : List Nat).length ≤ 99 ∧ (∀ x ∈ [98], x ≠ 0) ∧
    ([98] : List Nat).length ≤ 127 ∧
    ([99] : List Nat).length ≤ 99 ∧ (∀ x ∈ [99], x ≠ 0) ∧
    ([99] : List Nat).length ≤ 127 ∧
    alookup [([97], cexMeta), ([98], c4d2)] [97] = some cexMeta ∧
    alookup [([97], cexMeta), ([98], c4d2)] [98] = some c4d2 ∧
    alookup [([99], cexD1)] [99] = some cexD1 ∧
    cexMeta.content.length < 2 ^ 32 ∧ c4d2.content.length < 2 ^ 32 ∧
    cexD1.content.length < 2 ^ 32 ∧
    ((create_archive [([97], cexMeta), ([98], c4d2)] [[97], [98]]).1 = true ∧
      (append_files_to_archive
        (create_archive [([97], cexMeta), ([98], c4d2)] [[97], [98]]).2
        [([99], cexD1)] [[99]]).1 = true ∧
      get_archive_file_list 127
        (append_files_to_archive
          (create_archive [([97], cexMeta), ([98], c4d2)] [[97], [98]]).2
          [([99], cexD1)] [[99]]).2 = some [[97], [98], [99]] ∧
      (append_files_to_archive
        (create_archive [([97], cexMeta), ([98], c4d2)] [[97], [98]]).2
        [([99], cexD1)] [[99]]).2 =
        remove_trailing_bytes
          (create_archive [([97], cexMeta), ([98], c4d2)] [[97], [98]]).2 1024 ++
          (entryBytes [99] cexD1 ++ zeros 1024)) :=
  ⟨by decide, by decide, by decide, by decide, by decide, by decide, by decide,
    by decide, by decide, by decide, by decide, by decide, by decide, by decide,
    by decide,
    C6_append_then_list 127 [97] [98] [99] cexMeta c4d2 cexD1
      [([97], cexMeta), ([98], c4d2)] [([99], cexD1)]
      (by decide) (by decide) (by decide) (by decide) (by decide) (by decide)
      (by decide) (by decide) (by decide) (by decide) (by decide) (by decide)
      (by decide) (by decide) (by decide)⟩

/-! ### Long-name counterexamples for the duplicate-name and append claims -/

theorem scanLoop_entry_long (maxLen : Nat) (n : List Nat) (d : FileData)
    (rest : List Nat) (acc : List (List Nat)) (h2 : 100 ≤ n.length)
    (h3 : ∀ b ∈ n, b ≠ 0) (h5 : d.content.length < 2 ^ 32) :
    scanLoop maxLen (entryBytes n d ++ rest) acc =
      scanLoop maxLen rest
        (acc ++ [(n.take 100 ++ octalPad 7 (d.mode % 4096)).take maxLen]) := by
  unfold entryBytes
  rw [List.append_assoc,
    scanLoop_header maxLen _ _ acc d.content.length (headerBytes_fill_length n d)
      (headerBytes_fill_not_empty n d)
      (by rw [fill_strtol_size, Nat.mod_eq_of_lt h5]),
    fill_cstring_long n d h2 h3,
    List.drop_left' (padContent_length d.content)]

/-- The duplicated 101-byte-named file, first version (content "1"). -/
def c4cexFS1 : InFS := [(List.replicate 100 97 ++ [98], cexD1)]

/-- The duplicated 101-byte-named file, second version (content "2"). -/
def c4cexFS2 : InFS := [(List.replicate 100 97 ++ [98], cexD2)]

/-- C4 counterexample: create then append the same 101-byte name.  Both
operations succeed and extraction succeeds, but both entries extract to the
mangled path `cexPath` (the unterminated name field read into the mode
digits), so after extraction no file named `a` exists at all — the claimed
"the file named a contains exactly the content of the last entry" fails. -/
theorem C4_counterexample :
    (create_archive c4cexFS1 [List.replicate 100 97 ++ [98]]).1 = true ∧
    (append_files_to_archive
      (create_archive c4cexFS1 [List.replicate 100 97 ++ [98]]).2
      c4cexFS2 [List.replicate 100 97 ++ [98]]).1 = true ∧
    extract_files_from_archive
      (append_files_to_archive
        (create_archive c4cexFS1 [List.replicate 100 97 ++ [98]]).2
        c4cexFS2 [List.replicate 100 97 ++ [98]]).2 [] =
      some [(cexPath, [50]), (cexPath, [49])] ∧
    alookup [(cexPath, [50]), (cexPath, [49])]
      (List.replicate 100 97 ++ [98]) = none := by
  have hl1 : alookup c4cexFS1 (List.replicate 100 97 ++ [98]) = some cexD1 := by
    decide
  have hl2 : alookup c4cexFS2 (List.replicate 100 97 ++ [98]) = some cexD2 := by
    decide
  have hw1 : writeEntriesP c4cexFS1 [List.replicate 100 97 ++ [98]] =
      (true, entryBytes (List.replicate 100 97 ++ [98]) cexD1 ++ []) := by
    simp only [writeEntriesP, hl1]
  have hw2 : writeEntriesP c4cexFS2 [List.replicate 100 97 ++ [98]] =
      (true, entryBytes (List.replicate 100 97 ++ [98]) cexD2 ++ []) := by
    simp only [writeEntriesP, hl2]
  have hcr : create_archive c4cexFS1 [List.replicate 100 97 ++ [98]] =
      (true, (entryBytes (List.replicate 100 97 ++ [98]) cexD1 ++ []) ++
        zeros 1024) := by
    unfold create_archive
    rw [hw1]
    rfl
  have hap : append_files_to_archive
      ((entryBytes (List.replicate 100 97 ++ [98]) cexD1 ++ []) ++ zeros 1024)
      c4cexFS2 [List.replicate 100 97 ++ [98]] =
      (true, (entryBytes (List.replicate 100 97 ++ [98]) cexD1 ++ []) ++
        ((entryBytes (List.replicate 100 97 ++ [98]) cexD2 ++ []) ++
          zeros 1024)) := by
    unfold append_files_to_archive
    rw [hw2, remove_trailing_footer]
    rfl
  refine ⟨by rw [hcr], by rw [hcr, hap], ?_, by decide⟩
  rw [hcr, hap]
  show extractLoop _ [] = _
  have hsh : (entryBytes (List.replicate 100 97 ++ [98]) cexD1 ++ []) ++
      ((entryBytes (List.replicate 100 97 ++ [98]) cexD2 ++ []) ++ zeros 1024) =
      entryBytes (List.replicate 100 97 ++ [98]) cexD1 ++
        (entryBytes (List.replicate 100 97 ++ [98]) cexD2 ++ zeros 1024) := by
    simp
  rw [hsh,
    extractLoop_entry_long (List.replicate 100 97 ++ [98]) cexD1 _ []
      (by decide) (by decide) (by decide),
    extractLoop_entry_long (List.replicate 100 97 ++ [98]) cexD2 _ _
      (by decide) (by decide) (by decide)]
  have hstop := extractLoop_stop_two_zeros []
    (fsWrite (fsWrite [] ((List.replicate 100 97 ++ [98]).take 100 ++
        octalPad 7 (cexD1.mode % 4096)) cexD1.content)
      ((List.replicate 100 97 ++ [98]).take 100 ++
        octalPad 7 (cexD2.mode % 4096)) cexD2.content)
  rw [List.append_nil] at hstop
  rw [hstop]
  decide

/-- Members for the append-then-list counterexample: the 101-byte name and
the short name "b". -/
def c6cexFS1 : InFS := [(List.replicate 100 97 ++ [98], cexD1), ([98], c4d2)]

/-- The appended member "c" of the append-then-list counterexample. -/
def c6cexFS2 : InFS := [([99], cexD1)]

/-- C6 counterexample: `create([a, b])` then `append([c])` with a 101-byte
name `a`.  Both operations succeed, but listing yields for `a` the mangled
C string of the unterminated name field running into the mode digits, not
`a` itself, so the listed sequence is not `[a, b, c]`. -/
theorem C6_counterexample :
    (create_archive c6cexFS1 [List.replicate 100 97 ++ [98], [98]]).1 = true ∧
    (append_files_to_archive
      (create_archive c6cexFS1 [List.replicate 100 97 ++ [98], [98]]).2
      c6cexFS2 [[99]]).1 = true ∧
    get_archive_file_list 127
      (append_files_to_archive
        (create_archive c6cexFS1 [List.replicate 100 97 ++ [98], [98]]).2
        c6cexFS2 [[99]]).2 =
      some [(List.replicate 100 97 ++ octalPad 7 420).take 127, [98], [99]] ∧
    get_archive_file_list 127
      (append_files_to_archive
        (create_archive c6cexFS1 [List.replicate 100 97 ++ [98], [98]]).2
        c6cexFS2 [[99]]).2 ≠
      some [List.replicate 100 97 ++ [98], [98], [99]] := by
  have hl1 : alookup c6cexFS1 (List.replicate 100 97 ++ [98]) = some cexD1 := by
    decide
  have hl2 : alookup c6cexFS1 [98] = some c4d2 := by decide
  have hl3 : alookup c6cexFS2 [99] = some cexD1 := by decide
  have hw1 : writeEntriesP c6cexFS1 [List.replicate 100 97 ++ [98], [98]] =
      (true, entryBytes (List.replicate 100 97 ++ [98]) cexD1 ++
        (entryBytes [98] c4d2 ++ [])) := by
    simp only [writeEntriesP, hl1, hl2]
  have hw2 : writeEntriesP c6cexFS2 [[99]] =
      (true, entryBytes [99] cexD1 ++ []) := by
    simp only [writeEntriesP, hl3]
  have hcr : create_archive c6cexFS1 [List.replicate 100 97 ++ [98], [98]] =
      (true, (entryBytes (List.replicate 100 97 ++ [98]) cexD1 ++
        (entryBytes [98] c4d2 ++ [])) ++ zeros 1024) := by
    unfold create_archive
    rw [hw1]
    rfl
  have hap : append_files_to_archive
      ((entryBytes (List.replicate 100 97 ++ [98]) cexD1 ++
        (entryBytes [98] c4d2 ++ [])) ++ zeros 1024) c6cexFS2 [[99]] =
      (true, (entryBytes (List.replicate 100 97 ++ [98]) cexD1 ++
        (entryBytes [98] c4d2 ++ [])) ++
        ((entryBytes [99] cexD1 ++ []) ++ zeros 1024)) := by
    unfold append_files_to_archive
    rw [hw2, remove_trailing_footer]
    rfl
  have hlist : get_archive_file_list 127
      (append_files_to_archive
        (create_archive c6cexFS1 [List.replicate 100 97 ++ [98], [98]]).2
        c6cexFS2 [[99]]).2 =
      some [(List.replicate 100 97 ++ octalPad 7 420).take 127, [98], [99]] := by
    rw [hcr, hap]
    show scanLoop 127 _ [] = _
    have hsh : (entryBytes (List.replicate 100 97 ++ [98]) cexD1 ++
        (entryBytes [98] c4d2 ++ [])) ++
        ((entryBytes [99] cexD1 ++ []) ++ zeros 1024) =
        entryBytes (List.replicate 100 97 ++ [98]) cexD1 ++
          (entryBytes [98] c4d2 ++ (entryBytes [99] cexD1 ++ zeros 1024)) := by
      simp
    rw [hsh,
      scanLoop_entry_long 127 (List.replicate 100 97 ++ [98]) cexD1 _ []
        (by decide) (by decide) (by decide),
      scanLoop_entry 127 [98] c4d2 _ _ (by decide) (by decide) (by decide)
        (by decide),
      scanLoop_entry 127 [99] cexD1 _ _ (by decide) (by decide) (by decide)
        (by decide)]
    have hstop := scanLoop_stop_two_zeros 127 []
      ((([] ++ [((List.replicate 100 97 ++ [98]).take 100 ++
          octalPad 7 (cexD1.mode % 4096)).take 127]) ++ [[98]]) ++ [[99]])
    rw [List.append_nil] at hstop
    rw [hstop]
    decide
  refine ⟨by rw [hcr], by rw [hcr, hap], hlist, ?_⟩
  rw [hlist]
  decide
